import Mathlib

/-!
Shallow embedding of `src/autodnsip.py` (npm-ddns): a reconciliation engine
that keeps Cloudflare A records for the hostnames managed by a
Nginx-Proxy-Manager instance pointed at the host's current public IP.

External effects are modelled by oracles:
* `World.inventory` — result of `get_npm_token` + `get_proxy_hosts`
  (`none` = the HTTP call raised, i.e. auth/listing failure; `some l` = the
  flattened list of `domain_names` of all proxy hosts);
* `World.publicIP` — result of `get_public_ip` (`none` = failure);
* `CFWorld.records d` — the Cloudflare record list returned by the
  `GET dns_records` lookup for domain `d` within this run (`none` = the GET
  returned non-2xx so `raise_for_status` raised; the oracle is stable for
  the run, so repeated lookups of the same domain agree);
* `CFWorld.postOk` / `putOk` / `deleteOk` — whether the corresponding write
  call returned 2xx (`false` = non-2xx, which the Python code catches and
  logs inside the DNS-client functions without re-raising).

Persisted state (`proxy_hosts.txt`, `domain_ips.json`, `last_public_ip.txt`)
is modelled by `PersistedState`; `none` marks a missing (or, for the JSON
store, unparsable) file.  A run returns the trace of Cloudflare API calls,
the list of store writes, the per-hostname decisions (mirroring the decision
log lines), the final persisted state and the exit outcome.  `crashed`
models an exception escaping `main` (the Python interpreter then exits with
status 1).

Python set iteration order is unspecified; the model iterates hostname sets
in (deduplicated) list order.  All properties proved below are insensitive
to that order.
-/

namespace NpmDdns

/-- One entry of `CLOUDFLARE_CONFIG`: the credentials stored for a root
domain. -/
structure CFConfig where
  zoneId : String
  apiToken : String
deriving DecidableEq, Repr

/-- A DNS record as returned by the Cloudflare lookup: its provider id and
its current `content` (the IP it points at). -/
structure CFRecord where
  id : String
  content : String
deriving DecidableEq, Repr

/-- The JSON body sent on create (POST) and update (PUT): mirrors the
`data` dict in `create_cloudflare_a_record` / `update_cloudflare_a_record`. -/
structure Payload where
  rtype : String
  name : String
  content : String
  ttl : Nat
  proxied : Bool
deriving DecidableEq, Repr

/-- The `data` dict built by the source for both create and update:
`{"type": "A", "name": domain, "content": ip, "ttl": 3600, "proxied": True}`. -/
def mkPayload (domain ip : String) : Payload :=
  { rtype := "A", name := domain, content := ip, ttl := 3600, proxied := true }

/-- One Cloudflare API call made during a run.  Write calls carry whether
the provider answered 2xx (`ok`). -/
inductive CFCall where
  | lookup (domain : String)
  | createPost (domain : String) (payload : Payload) (ok : Bool)
  | putUpdate (domain : String) (recordId : String) (payload : Payload) (ok : Bool)
  | deleteRec (domain : String) (recordId : String) (ok : Bool)
deriving DecidableEq, Repr

/-- The Cloudflare-side oracle for one run (stable within the run). -/
structure CFWorld where
  records : String → Option (List CFRecord)
  postOk : String → Bool
  putOk : String → String → Bool
  deleteOk : String → String → Bool

/-- The three files the script persists across runs.  `none` = the file is
missing (for `domainIPs` also: present but unparsable, since the source
catches every load exception alike). -/
structure PersistedState where
  hostsFile : Option (List String)
  domainIPs : Option (List (String × String))
  lastIP : Option String
deriving DecidableEq, Repr

/-- All external inputs of one run. -/
structure World where
  inventory : Option (List String)
  publicIP : Option String
  forceUpdate : Bool
  cfConfig : List (String × CFConfig)
  cf : CFWorld

/-- Exit of the process: `returned n` = `main` returned `n`;
`crashed` = an uncaught exception escaped `main` (the interpreter exits
with a non-zero status, 1). -/
inductive ExitOutcome where
  | returned (code : Nat)
  | crashed
deriving DecidableEq, Repr

/-- The numeric process exit status produced by `exit(main())`, with an
uncaught exception giving the interpreter's status 1. -/
def processExitCode : ExitOutcome → Nat
  | .returned n => n
  | .crashed => 1

/-- A write to one of the three persisted stores. -/
inductive StoreWrite where
  | hosts (domains : List String)
  | ips (m : List (String × String))
  | lastIP (ip : String)
deriving DecidableEq, Repr

/-- Which branch the per-hostname decision logic took, mirroring the
distinct log lines printed in `main`. -/
inductive Decision where
  | createBranch (domain : String)
  | updateBranch (domain : String)
  | noopBranch (domain : String)
  | unroutable (domain : String)
deriving DecidableEq, Repr

/-- Everything observable about one run. -/
structure RunResult where
  cfTrace : List CFCall
  writes : List StoreWrite
  decisions : List Decision
  finalState : PersistedState
  exit : ExitOutcome
deriving DecidableEq, Repr

/-- Python dict read `m.get(k)` / `m[k]` on the `stored_ips` mapping. -/
def dictGet : List (String × String) → String → Option String
  | [], _ => none
  | p :: rest, k => if p.1 == k then some p.2 else dictGet rest k

/-- Python dict write `m[k] = v` (replaces the entry if the key exists,
appends otherwise). -/
def dictSet : List (String × String) → String → String → List (String × String)
  | [], k, v => [(k, v)]
  | p :: rest, k, v => if p.1 == k then (k, v) :: rest else p :: dictSet rest k v

/-- Python dict delete `del m[k]` guarded by `if k in m` (removing an
absent key is the identity). -/
def dictDel : List (String × String) → String → List (String × String)
  | [], _ => []
  | p :: rest, k => if p.1 == k then dictDel rest k else p :: dictDel rest k

/-- Python's `str.endswith`: the second string's character sequence is a
suffix of the first's.  (Core's `String.endsWith` agrees but its loop does
not reduce in the kernel, so the test is spelled out on `String.data`.) -/
def strEndsWith (s post : String) : Bool :=
  if post.data.length ≤ s.data.length then
    s.data.drop (s.data.length - post.data.length) == post.data
  else false

/-- `get_cf_config_for_domain`: walk `CLOUDFLARE_CONFIG` in iteration order
and return the credentials of the first root domain that `domain` ends
with; `none` when no root matches. -/
def get_cf_config_for_domain : List (String × CFConfig) → String → Option CFConfig
  | [], _ => none
  | (root, c) :: rest, domain =>
    if strEndsWith domain root then some c else get_cf_config_for_domain rest domain

/-- The PUT calls issued by the record loop of `update_cloudflare_a_record`:
one in-place update per returned record whose `content` differs from the
new IP, nothing for records already at the new IP. -/
def updateWrites (w : CFWorld) (domain ip : String) (rs : List CFRecord) : List CFCall :=
  rs.foldr
    (fun r acc =>
      (if r.content != ip then
        [CFCall.putUpdate domain r.id (mkPayload domain ip) (w.putOk domain r.id)]
      else []) ++ acc)
    []

/-- `update_cloudflare_a_record`: look the records up (`none` = the GET
raised); when none exist, fall through to `create_cloudflare_a_record`
(which, against the stable oracle, re-checks — a second lookup — and then
POSTs a create); otherwise reconcile every returned record.  Returns the
Cloudflare call trace, or `none` when the function raised. -/
def update_cloudflare_a_record (w : CFWorld) (domain ip : String) : Option (List CFCall) :=
  match w.records domain with
  | none => none
  | some rs =>
    if rs.isEmpty then
      some [CFCall.lookup domain, CFCall.lookup domain,
        CFCall.createPost domain (mkPayload domain ip) (w.postOk domain)]
    else
      some (CFCall.lookup domain :: updateWrites w domain ip rs)

/-- `create_cloudflare_a_record`: check whether records exist (one lookup,
raising when the GET fails); if some exist, delegate to
`update_cloudflare_a_record`; otherwise POST a create.  A non-2xx create
response is caught and logged inside the function (it still returns
normally, only the GET can raise). -/
def create_cloudflare_a_record (w : CFWorld) (domain ip : String) : Option (List CFCall) :=
  match w.records domain with
  | none => none
  | some rs =>
    if rs.length > 0 then
      (update_cloudflare_a_record w domain ip).map (fun t => CFCall.lookup domain :: t)
    else
      some [CFCall.lookup domain, CFCall.createPost domain (mkPayload domain ip) (w.postOk domain)]

/-- `delete_cloudflare_a_record`: look the records up (raising when the GET
fails) and issue one DELETE per returned record; delete failures are caught
and logged inside the loop. -/
def delete_cloudflare_a_record (w : CFWorld) (domain : String) : Option (List CFCall) :=
  match w.records domain with
  | none => none
  | some rs =>
    some (CFCall.lookup domain ::
      rs.map (fun r => CFCall.deleteRec domain r.id (w.deleteOk domain r.id)))

/-- Intermediate state of the two per-hostname loops in `main`: the call
trace so far, the decision log so far, and the in-memory `stored_ips`. -/
structure LoopState where
  trace : List CFCall
  decisions : List Decision
  stored : List (String × String)
deriving Repr

/-- One iteration of the `for domain in current_domains` loop of `main`:
resolve routing (skip when unroutable); fresh domains (newly created or
absent from `stored_ips`) go through `create_cloudflare_a_record`, existing
ones through `update_cloudflare_a_record` when the IP changed or the force
flag is set, and are a no-op otherwise.  An exception from the DNS client
is caught (the one lookup it made is still traced) and skips the
`stored_ips[domain] = ip` assignment. -/
def processCurrentDomain (w : World) (created : List String) (ipChanged : Bool)
    (ip : String) (st : LoopState) (domain : String) : LoopState :=
  match get_cf_config_for_domain w.cfConfig domain with
  | none => { st with decisions := st.decisions ++ [Decision.unroutable domain] }
  | some _ =>
    if created.contains domain || (dictGet st.stored domain).isNone then
      match create_cloudflare_a_record w.cf domain ip with
      | none =>
        { st with trace := st.trace ++ [CFCall.lookup domain],
                  decisions := st.decisions ++ [Decision.createBranch domain] }
      | some t =>
        { trace := st.trace ++ t,
          decisions := st.decisions ++ [Decision.createBranch domain],
          stored := dictSet st.stored domain ip }
    else if ipChanged || w.forceUpdate then
      match update_cloudflare_a_record w.cf domain ip with
      | none =>
        { st with trace := st.trace ++ [CFCall.lookup domain],
                  decisions := st.decisions ++ [Decision.updateBranch domain] }
      | some t =>
        { trace := st.trace ++ t,
          decisions := st.decisions ++ [Decision.updateBranch domain],
          stored := dictSet st.stored domain ip }
    else { st with decisions := st.decisions ++ [Decision.noopBranch domain] }

/-- One iteration of the `for domain in deleted_domains` loop of `main`:
an unroutable domain is skipped entirely (`continue` fires before the
`del stored_ips[domain]`); otherwise the delete is attempted (exceptions
caught, the lookup it made traced) and the hostname is removed from
`stored_ips` regardless of the delete's outcome. -/
def processDeletedDomain (w : World) (st : LoopState) (domain : String) : LoopState :=
  match get_cf_config_for_domain w.cfConfig domain with
  | none => { st with decisions := st.decisions ++ [Decision.unroutable domain] }
  | some _ =>
    let t := match delete_cloudflare_a_record w.cf domain with
      | none => [CFCall.lookup domain]
      | some t => t
    { st with trace := st.trace ++ t, stored := dictDel st.stored domain }

/-- The non-early-exit tail of `main`: load `stored_ips` (an unreadable or
unparsable store degrades to the empty dict), run both per-hostname loops,
then write all three stores (in source order: `domain_ips.json`,
`proxy_hosts.txt`, `last_public_ip.txt`) and return 0. -/
def runWork (w : World) (s : PersistedState) (current created deleted : List String)
    (ipChanged : Bool) (ip : String) : RunResult :=
  let stored0 := s.domainIPs.getD []
  let st1 := current.foldl (processCurrentDomain w created ipChanged ip)
    { trace := [], decisions := [], stored := stored0 }
  let st2 := deleted.foldl (processDeletedDomain w) st1
  { cfTrace := st2.trace,
    writes := [StoreWrite.ips st2.stored, StoreWrite.hosts current, StoreWrite.lastIP ip],
    decisions := st2.decisions,
    finalState := { hostsFile := some current, domainIPs := some st2.stored, lastIP := some ip },
    exit := .returned 0 }

/-- `current_domains`: the set built from the inventory (set semantics of
the Python set comprehension, modelled by dedup). -/
def currentOf (invL : List String) : List String := invL.dedup

/-- `previous_domains`: the set read from `proxy_hosts.txt` (empty when the
file is missing). -/
def previousOf (s : PersistedState) : List String := (s.hostsFile.getD []).dedup

/-- `created_domains = current_domains - previous_domains`. -/
def createdOf (invL : List String) (s : PersistedState) : List String :=
  (currentOf invL).filter (fun d => !(previousOf s).contains d)

/-- `deleted_domains = previous_domains - current_domains`. -/
def deletedOf (invL : List String) (s : PersistedState) : List String :=
  (previousOf s).filter (fun d => !(currentOf invL).contains d)

/-- `ip_changed = last_known_ip != current_public_ip` (a missing last-IP
file counts as changed). -/
def ipChangedOf (s : PersistedState) (ip : String) : Bool := s.lastIP != some ip

/-- The body of `main` once the inventory (`invL`) and a truthy public IP
(`ip`) are in hand: compute the created/deleted deltas against the
persisted hostname set, detect the IP change, and either take the
early-exit (no Cloudflare call, no write, state unchanged, return 0) or do
the work. -/
def processAll (w : World) (s : PersistedState) (invL : List String) (ip : String) :
    RunResult :=
  if !(!(createdOf invL s).isEmpty || !(deletedOf invL s).isEmpty) &&
      !(ipChangedOf s ip) && !w.forceUpdate then
    { cfTrace := [], writes := [], decisions := [], finalState := s, exit := .returned 0 }
  else
    runWork w s (currentOf invL) (createdOf invL s) (deletedOf invL s) (ipChangedOf s ip) ip

/-- `main`: an inventory failure raises out of `main` (the process
crashes); a falsy public IP (`None`, or the degenerate empty string, since
the source tests `if not current_public_ip`) aborts with return code 1
before any mutation; otherwise run the reconciliation. -/
def main (w : World) (s : PersistedState) : RunResult :=
  match w.inventory with
  | none => { cfTrace := [], writes := [], decisions := [], finalState := s, exit := .crashed }
  | some invL =>
    match w.publicIP with
    | none =>
      { cfTrace := [], writes := [], decisions := [], finalState := s, exit := .returned 1 }
    | some ip =>
      if ip = "" then
        { cfTrace := [], writes := [], decisions := [], finalState := s, exit := .returned 1 }
      else processAll w s invL ip

/-! ### Concrete scenarios (used by counterexamples and witnesses) -/

/-- A sample Cloudflare credential entry. -/
def cfgA : CFConfig := { zoneId := "zone-1", apiToken := "token-1" }

/-- The sample routing configuration: one root domain, `hung99.com`. -/
def rootCfg : List (String × CFConfig) := [("hung99.com", cfgA)]

/-- Cloudflare oracle: every lookup succeeds with no existing records,
every write succeeds. -/
def cfEmpty : CFWorld :=
  { records := fun _ => some [], postOk := fun _ => true,
    putOk := fun _ _ => true, deleteOk := fun _ _ => true }

/-- Cloudflare oracle: every record lookup returns non-2xx (raises). -/
def cfNoneRecords : CFWorld :=
  { records := fun _ => none, postOk := fun _ => true,
    putOk := fun _ _ => true, deleteOk := fun _ _ => true }

/-- Cloudflare oracle: lookups find no records, and the create POST
answers non-2xx. -/
def cfPostFail : CFWorld :=
  { records := fun _ => some [], postOk := fun _ => false,
    putOk := fun _ _ => true, deleteOk := fun _ _ => true }

/-- Cloudflare oracle: one existing record whose content is stale. -/
def cfOneStale : CFWorld :=
  { records := fun _ => some [{ id := "r1", content := "9.9.9.9" }],
    postOk := fun _ => true, putOk := fun _ _ => true, deleteOk := fun _ _ => true }

/-- Cloudflare oracle: two existing records, one stale and one already at
the target IP. -/
def cfTwoRecords : CFWorld :=
  { records := fun _ => some [{ id := "r1", content := "3.3.3.3" },
      { id := "r2", content := "1.1.1.1" }],
    postOk := fun _ => true, putOk := fun _ _ => true, deleteOk := fun _ _ => true }

/-- World builder over `rootCfg` with the force flag unset. -/
def mkWorld (inv : Option (List String)) (pip : Option String) (cf : CFWorld) : World :=
  { inventory := inv, publicIP := pip, forceUpdate := false, cfConfig := rootCfg, cf := cf }

/-- World: one routable hostname in the inventory, IP `1.1.1.1`, empty
Cloudflare zone. -/
def wA : World := mkWorld (some ["a.hung99.com"]) (some "1.1.1.1") cfEmpty

/-- Empty prior state (first run). -/
def sEmpty : PersistedState := { hostsFile := none, domainIPs := none, lastIP := none }

/-- State for the C3 counterexample: `b.hung99.com` was removed (so the run
does work), while `a.hung99.com` has a stale stored IP and the public IP is
unchanged. -/
def sCex3 : PersistedState :=
  { hostsFile := some ["a.hung99.com", "b.hung99.com"],
    domainIPs := some [("a.hung99.com", "9.9.9.9")],
    lastIP := some "1.1.1.1" }

/-- World for the C3 witness: the stored record for the hostname is stale
and the provider holds one stale record. -/
def wWit3 : World := mkWorld (some ["a.hung99.com"]) (some "1.1.1.1") cfOneStale

/-- State for the C3 witness: hostname tracked with a stale IP, and the
last-known public IP differs from the current one. -/
def sWit3 : PersistedState :=
  { hostsFile := some ["a.hung99.com"],
    domainIPs := some [("a.hung99.com", "9.9.9.9")],
    lastIP := some "5.5.5.5" }

/-- World for the C4 counterexample: the inventory is now empty. -/
def wCex4 : World := mkWorld (some []) (some "1.1.1.1") cfEmpty

/-- State for the C4 counterexample: the deleted hostname matches no
configured root domain but is still tracked in the IP record. -/
def sCex4 : PersistedState :=
  { hostsFile := some ["x.other.org"],
    domainIPs := some [("x.other.org", "1.1.1.1")],
    lastIP := some "1.1.1.1" }

/-- World for the C4 witness: empty inventory and a Cloudflare oracle whose
delete lookup raises. -/
def wWit4 : World := mkWorld (some []) (some "1.1.1.1") cfNoneRecords

/-- State for the C4 witness: a routable tracked hostname that disappeared
from the inventory. -/
def sWit4 : PersistedState :=
  { hostsFile := some ["x.hung99.com"],
    domainIPs := some [("x.hung99.com", "1.1.1.1")],
    lastIP := some "1.1.1.1" }

/-- World for the C5 counterexample: the create POST answers non-2xx. -/
def wCex5 : World := mkWorld (some ["a.hung99.com"]) (some "1.1.1.1") cfPostFail

/-- State for the C5 counterexample: nothing tracked yet. -/
def sCex5 : PersistedState :=
  { hostsFile := some [], domainIPs := some [], lastIP := none }

/-- World for the C5 witness: the record lookup raises. -/
def wWit5 : World := mkWorld (some ["a.hung99.com"]) (some "1.1.1.1") cfNoneRecords

/-- State for the C5 witness: the hostname already has a (stale) stored
entry, which the failed run must leave untouched. -/
def sWit5 : PersistedState :=
  { hostsFile := some [], domainIPs := some [("a.hung99.com", "7.7.7.7")], lastIP := none }

/-- World for the C6 counterexample: inventory auth/listing fails while
public-IP resolution works. -/
def wCex6 : World := mkWorld none (some "1.1.1.1") cfEmpty

/-- State for the C10 counterexample: the domain-to-IP store is unreadable,
yet nothing else changed, so the run early-exits. -/
def sCex10 : PersistedState :=
  { hostsFile := some ["a.hung99.com"], domainIPs := none, lastIP := some "1.1.1.1" }

/-- State for the C10 witness: unreadable domain-to-IP store and a changed
public IP, so the run does work. -/
def sWit10 : PersistedState :=
  { hostsFile := some ["a.hung99.com"], domainIPs := none, lastIP := some "2.2.2.2" }

/-- State for the C1 witness: everything already in sync. -/
def sWit1 : PersistedState :=
  { hostsFile := some ["a.hung99.com"],
    domainIPs := some [("a.hung99.com", "1.1.1.1")],
    lastIP := some "1.1.1.1" }

/-- World for the C2 witness: two routable hostnames, fresh public IP. -/
def wWit2 : World := mkWorld (some ["a.hung99.com", "b.hung99.com"]) (some "2.2.2.2") cfEmpty

/-- World for the C9 witness: inventory authentication fails. -/
def wWit9 : World := mkWorld none none cfEmpty

/-! ### Suffix-test characterisation -/

/-- `strEndsWith` decides the character-list suffix relation. -/
theorem strEndsWith_iff (s post : String) :
    strEndsWith s post = true ↔ post.data <:+ s.data := by
  unfold strEndsWith
  by_cases h : post.data.length ≤ s.data.length
  · rw [if_pos h, beq_iff_eq]
    constructor
    · intro hd
      exact ⟨s.data.take (s.data.length - post.data.length), by
        conv_rhs => rw [← List.take_append_drop (s.data.length - post.data.length) s.data, hd]⟩
    · rintro ⟨t, ht⟩
      have h2 : t.length + post.data.length = s.data.length := by
        have h3 := congrArg List.length ht
        simpa using h3
      have hlen : s.data.length - post.data.length = t.length := by omega
      rw [hlen, ← ht, List.drop_left]
  · rw [if_neg h]
    simp only [Bool.false_eq_true, false_iff]
    intro hs
    exact h hs.length_le

/-! ### Dictionary lemmas -/

theorem dictGet_dictSet_self (m : List (String × String)) (k v : String) :
    dictGet (dictSet m k v) k = some v := by
  induction m with
  | nil => simp [dictSet, dictGet]
  | cons p rest ih =>
    by_cases h : p.1 = k
    · simp [dictSet, dictGet, h]
    · simp [dictSet, dictGet, h, ih]

theorem dictGet_dictSet_ne (m : List (String × String)) (k v h' : String) (hne : k ≠ h') :
    dictGet (dictSet m k v) h' = dictGet m h' := by
  induction m with
  | nil => simp [dictSet, dictGet, hne]
  | cons p rest ih =>
    by_cases h : p.1 = k
    · simp [dictSet, dictGet, h, hne]
    · simp [dictSet, dictGet, h, ih]

theorem dictGet_dictDel_self (m : List (String × String)) (k : String) :
    dictGet (dictDel m k) k = none := by
  induction m with
  | nil => simp [dictDel, dictGet]
  | cons p rest ih =>
    by_cases h : p.1 = k
    · simp [dictDel, dictGet, h, ih]
    · simp [dictDel, dictGet, h, ih]

theorem dictGet_dictDel_ne (m : List (String × String)) (k h' : String) (hne : k ≠ h') :
    dictGet (dictDel m k) h' = dictGet m h' := by
  induction m with
  | nil => simp [dictDel, dictGet]
  | cons p rest ih =>
    by_cases h : p.1 = k
    · simp [dictDel, dictGet, h, hne, ih]
    · simp [dictDel, dictGet, h, ih]

/-! ### DNS-client result shapes -/

theorem update_returns_some (w : CFWorld) (d ip : String) (rs : List CFRecord)
    (hrec : w.records d = some rs) :
    ∃ t, update_cloudflare_a_record w d ip = some t := by
  simp only [update_cloudflare_a_record, hrec]
  split
  · exact ⟨_, rfl⟩
  · exact ⟨_, rfl⟩

theorem create_returns_some (w : CFWorld) (d ip : String) (rs : List CFRecord)
    (hrec : w.records d = some rs) :
    ∃ t, create_cloudflare_a_record w d ip = some t := by
  simp only [create_cloudflare_a_record, hrec]
  split
  · obtain ⟨t, ht⟩ := update_returns_some w d ip rs hrec
    exact ⟨_, by rw [ht]; rfl⟩
  · exact ⟨_, rfl⟩

theorem update_none_of_records_none (w : CFWorld) (d ip : String)
    (hrec : w.records d = none) :
    update_cloudflare_a_record w d ip = none := by
  simp only [update_cloudflare_a_record, hrec]

theorem create_none_of_records_none (w : CFWorld) (d ip : String)
    (hrec : w.records d = none) :
    create_cloudflare_a_record w d ip = none := by
  simp only [create_cloudflare_a_record, hrec]

/-! ### One iteration of the current-domains loop -/

theorem processCurrentDomain_stored_ne (w : World) (created : List String) (ipC : Bool)
    (ip : String) (st : LoopState) (d h : String) (hne : d ≠ h) :
    dictGet (processCurrentDomain w created ipC ip st d).stored h = dictGet st.stored h := by
  unfold processCurrentDomain
  split
  · rfl
  · split
    · split
      · rfl
      · exact dictGet_dictSet_ne st.stored d ip h hne
    · split
      · split
        · rfl
        · exact dictGet_dictSet_ne st.stored d ip h hne
      · rfl

theorem processCurrentDomain_decisions_append (w : World) (created : List String)
    (ipC : Bool) (ip : String) (st : LoopState) (d : String) :
    ∃ xs, (processCurrentDomain w created ipC ip st d).decisions = st.decisions ++ xs := by
  unfold processCurrentDomain
  split
  · exact ⟨_, rfl⟩
  · split
    · split
      · exact ⟨_, rfl⟩
      · exact ⟨_, rfl⟩
    · split
      · split
        · exact ⟨_, rfl⟩
        · exact ⟨_, rfl⟩
      · exact ⟨_, rfl⟩

theorem processCurrentDomain_stored_records_none (w : World) (created : List String)
    (ipC : Bool) (ip : String) (st : LoopState) (d : String)
    (hrec : w.cf.records d = none) :
    dictGet (processCurrentDomain w created ipC ip st d).stored d = dictGet st.stored d := by
  unfold processCurrentDomain
  split
  · rfl
  · split
    · split
      · rfl
      · next t heq =>
        rw [create_none_of_records_none w.cf d ip hrec] at heq
        cases heq
    · split
      · split
        · rfl
        · next t heq =>
          rw [update_none_of_records_none w.cf d ip hrec] at heq
          cases heq
      · rfl

theorem processCurrentDomain_update_sets (w : World) (created : List String) (ipC : Bool)
    (ip : String) (st : LoopState) (h : String) (c : CFConfig) (rs : List CFRecord)
    (hcfg : get_cf_config_for_domain w.cfConfig h = some c)
    (hnc : created.contains h = false)
    (hsome : (dictGet st.stored h).isSome = true)
    (hif : (ipC || w.forceUpdate) = true)
    (hrec : w.cf.records h = some rs) :
    dictGet (processCurrentDomain w created ipC ip st h).stored h = some ip := by
  unfold processCurrentDomain
  rw [hcfg]
  have hcond : (created.contains h || (dictGet st.stored h).isNone) = false := by
    rw [hnc, Bool.false_or]
    obtain ⟨v, hv⟩ := Option.isSome_iff_exists.mp hsome
    rw [hv]; rfl
  rw [hcond]
  simp only [Bool.false_eq_true, if_false, hif, if_true]
  obtain ⟨t, ht⟩ := update_returns_some w.cf h ip rs hrec
  rw [ht]
  exact dictGet_dictSet_self st.stored h ip

theorem processCurrentDomain_create_sets (w : World) (created : List String) (ipC : Bool)
    (ip : String) (st : LoopState) (h : String) (c : CFConfig) (rs : List CFRecord)
    (hcfg : get_cf_config_for_domain w.cfConfig h = some c)
    (hcond : (created.contains h || (dictGet st.stored h).isNone) = true)
    (hrec : w.cf.records h = some rs) :
    dictGet (processCurrentDomain w created ipC ip st h).stored h = some ip := by
  unfold processCurrentDomain
  rw [hcfg, hcond]
  simp only [if_true]
  obtain ⟨t, ht⟩ := create_returns_some w.cf h ip rs hrec
  rw [ht]
  exact dictGet_dictSet_self st.stored h ip

theorem processCurrentDomain_create_decision (w : World) (created : List String)
    (ipC : Bool) (ip : String) (st : LoopState) (h : String) (c : CFConfig)
    (hcfg : get_cf_config_for_domain w.cfConfig h = some c)
    (hcond : (created.contains h || (dictGet st.stored h).isNone) = true) :
    Decision.createBranch h ∈ (processCurrentDomain w created ipC ip st h).decisions := by
  unfold processCurrentDomain
  rw [hcfg, hcond]
  simp only [if_true]
  split
  · exact List.mem_append_right _ (List.mem_singleton.mpr rfl)
  · exact List.mem_append_right _ (List.mem_singleton.mpr rfl)

/-! ### One iteration of the deleted-domains loop -/

theorem processDeletedDomain_stored_ne (w : World) (st : LoopState) (d h : String)
    (hne : d ≠ h) :
    dictGet (processDeletedDomain w st d).stored h = dictGet st.stored h := by
  unfold processDeletedDomain
  split
  · rfl
  · exact dictGet_dictDel_ne st.stored d h hne

theorem processDeletedDomain_stored_none (w : World) (st : LoopState) (d h : String)
    (h0 : dictGet st.stored h = none) :
    dictGet (processDeletedDomain w st d).stored h = none := by
  by_cases hdh : d = h
  · subst hdh
    unfold processDeletedDomain
    split
    · exact h0
    · exact dictGet_dictDel_self st.stored d
  · rw [processDeletedDomain_stored_ne w st d h hdh]
    exact h0

theorem processDeletedDomain_erases (w : World) (st : LoopState) (d : String) (c : CFConfig)
    (hcfg : get_cf_config_for_domain w.cfConfig d = some c) :
    dictGet (processDeletedDomain w st d).stored d = none := by
  unfold processDeletedDomain
  rw [hcfg]
  exact dictGet_dictDel_self st.stored d

theorem processDeletedDomain_decisions_append (w : World) (st : LoopState) (d : String) :
    ∃ xs, (processDeletedDomain w st d).decisions = st.decisions ++ xs := by
  unfold processDeletedDomain
  split
  · exact ⟨_, rfl⟩
  · exact ⟨[], (List.append_nil _).symm⟩

/-! ### Folding the current-domains loop -/

theorem foldl_current_stored_notmem (w : World) (created : List String) (ipC : Bool)
    (ip : String) :
    ∀ (l : List String) (st : LoopState) (h : String), h ∉ l →
    dictGet ((l.foldl (processCurrentDomain w created ipC ip) st).stored) h =
      dictGet st.stored h := by
  intro l
  induction l with
  | nil => intro st h _; rfl
  | cons d rest ih =>
    intro st h hmem
    rw [List.foldl_cons, ih _ _ (fun hc => hmem (List.mem_cons_of_mem _ hc))]
    exact processCurrentDomain_stored_ne w created ipC ip st d h
      (fun he => hmem (he ▸ List.mem_cons_self d rest))

theorem foldl_current_stored_records_none (w : World) (created : List String) (ipC : Bool)
    (ip : String) :
    ∀ (l : List String) (st : LoopState) (h : String), w.cf.records h = none →
    dictGet ((l.foldl (processCurrentDomain w created ipC ip) st).stored) h =
      dictGet st.stored h := by
  intro l
  induction l with
  | nil => intro st h _; rfl
  | cons d rest ih =>
    intro st h hrec
    rw [List.foldl_cons, ih _ _ hrec]
    by_cases hdh : d = h
    · subst hdh
      exact processCurrentDomain_stored_records_none w created ipC ip st d hrec
    · exact processCurrentDomain_stored_ne w created ipC ip st d h hdh

theorem mem_decisions_foldl_current (w : World) (created : List String) (ipC : Bool)
    (ip : String) :
    ∀ (l : List String) (st : LoopState) (x : Decision), x ∈ st.decisions →
    x ∈ (l.foldl (processCurrentDomain w created ipC ip) st).decisions := by
  intro l
  induction l with
  | nil => intro st x hx; exact hx
  | cons d rest ih =>
    intro st x hx
    rw [List.foldl_cons]
    apply ih
    obtain ⟨xs, hxs⟩ := processCurrentDomain_decisions_append w created ipC ip st d
    rw [hxs]
    exact List.mem_append_left _ hx

theorem foldl_current_update_sets (w : World) (created : List String) (ipC : Bool)
    (ip : String) (c : CFConfig) (rs : List CFRecord) :
    ∀ (l : List String), l.Nodup → ∀ (st : LoopState) (h : String), h ∈ l →
    get_cf_config_for_domain w.cfConfig h = some c →
    created.contains h = false →
    (dictGet st.stored h).isSome = true →
    (ipC || w.forceUpdate) = true →
    w.cf.records h = some rs →
    dictGet ((l.foldl (processCurrentDomain w created ipC ip) st).stored) h = some ip := by
  intro l
  induction l with
  | nil => intro _ st h hmem; cases hmem
  | cons d rest ih =>
    intro hnd st h hmem hcfg hnc hsome hif hrec
    rw [List.foldl_cons]
    rcases List.mem_cons.mp hmem with rfl | hmem'
    · rw [foldl_current_stored_notmem w created ipC ip rest _ h (List.nodup_cons.mp hnd).1]
      exact processCurrentDomain_update_sets w created ipC ip st h c rs hcfg hnc hsome hif hrec
    · have hdh : d ≠ h := fun he => (List.nodup_cons.mp hnd).1 (he ▸ hmem')
      apply ih (List.nodup_cons.mp hnd).2 _ _ hmem' hcfg hnc _ hif hrec
      rw [processCurrentDomain_stored_ne w created ipC ip st d h hdh]
      exact hsome

theorem foldl_current_create_sets (w : World) (created : List String) (ipC : Bool)
    (ip : String) (c : CFConfig) (rs : List CFRecord) :
    ∀ (l : List String), l.Nodup → ∀ (st : LoopState) (h : String), h ∈ l →
    get_cf_config_for_domain w.cfConfig h = some c →
    dictGet st.stored h = none →
    w.cf.records h = some rs →
    dictGet ((l.foldl (processCurrentDomain w created ipC ip) st).stored) h = some ip := by
  intro l
  induction l with
  | nil => intro _ st h hmem; cases hmem
  | cons d rest ih =>
    intro hnd st h hmem hcfg h0 hrec
    rw [List.foldl_cons]
    rcases List.mem_cons.mp hmem with rfl | hmem'
    · rw [foldl_current_stored_notmem w created ipC ip rest _ h (List.nodup_cons.mp hnd).1]
      exact processCurrentDomain_create_sets w created ipC ip st h c rs hcfg
        (by rw [h0]; simp) hrec
    · have hdh : d ≠ h := fun he => (List.nodup_cons.mp hnd).1 (he ▸ hmem')
      apply ih (List.nodup_cons.mp hnd).2 _ _ hmem' hcfg _ hrec
      rw [processCurrentDomain_stored_ne w created ipC ip st d h hdh]
      exact h0

theorem foldl_current_create_decision (w : World) (created : List String) (ipC : Bool)
    (ip : String) (c : CFConfig) :
    ∀ (l : List String), l.Nodup → ∀ (st : LoopState) (h : String), h ∈ l →
    get_cf_config_for_domain w.cfConfig h = some c →
    dictGet st.stored h = none →
    Decision.createBranch h ∈ (l.foldl (processCurrentDomain w created ipC ip) st).decisions := by
  intro l
  induction l with
  | nil => intro _ st h hmem; cases hmem
  | cons d rest ih =>
    intro hnd st h hmem hcfg h0
    rw [List.foldl_cons]
    rcases List.mem_cons.mp hmem with rfl | hmem'
    · apply mem_decisions_foldl_current
      exact processCurrentDomain_create_decision w created ipC ip st h c hcfg
        (by rw [h0]; simp)
    · have hdh : d ≠ h := fun he => (List.nodup_cons.mp hnd).1 (he ▸ hmem')
      apply ih (List.nodup_cons.mp hnd).2 _ _ hmem' hcfg
      rw [processCurrentDomain_stored_ne w created ipC ip st d h hdh]
      exact h0

/-! ### Folding the deleted-domains loop -/

theorem foldl_deleted_stored_notmem (w : World) :
    ∀ (l : List String) (st : LoopState) (h : String), h ∉ l →
    dictGet ((l.foldl (processDeletedDomain w) st).stored) h = dictGet st.stored h := by
  intro l
  induction l with
  | nil => intro st h _; rfl
  | cons d rest ih =>
    intro st h hmem
    rw [List.foldl_cons, ih _ _ (fun hc => hmem (List.mem_cons_of_mem _ hc))]
    exact processDeletedDomain_stored_ne w st d h
      (fun he => hmem (he ▸ List.mem_cons_self d rest))

theorem foldl_deleted_stored_none (w : World) :
    ∀ (l : List String) (st : LoopState) (h : String), dictGet st.stored h = none →
    dictGet ((l.foldl (processDeletedDomain w) st).stored) h = none := by
  intro l
  induction l with
  | nil => intro st h h0; exact h0
  | cons d rest ih =>
    intro st h h0
    rw [List.foldl_cons]
    exact ih _ _ (processDeletedDomain_stored_none w st d h h0)

theorem foldl_deleted_erases (w : World) (c : CFConfig) :
    ∀ (l : List String) (st : LoopState) (h : String), h ∈ l →
    get_cf_config_for_domain w.cfConfig h = some c →
    dictGet ((l.foldl (processDeletedDomain w) st).stored) h = none := by
  intro l
  induction l with
  | nil => intro st h hmem; cases hmem
  | cons d rest ih =>
    intro st h hmem hcfg
    rw [List.foldl_cons]
    rcases List.mem_cons.mp hmem with rfl | hmem'
    · exact foldl_deleted_stored_none w rest _ h (processDeletedDomain_erases w st h c hcfg)
    · exact ih _ _ hmem' hcfg

theorem mem_decisions_foldl_deleted (w : World) :
    ∀ (l : List String) (st : LoopState) (x : Decision), x ∈ st.decisions →
    x ∈ (l.foldl (processDeletedDomain w) st).decisions := by
  intro l
  induction l with
  | nil => intro st x hx; exact hx
  | cons d rest ih =>
    intro st x hx
    rw [List.foldl_cons]
    apply ih
    obtain ⟨xs, hxs⟩ := processDeletedDomain_decisions_append w st d
    rw [hxs]
    exact List.mem_append_left _ hx

/-! ### Run-level helper lemmas -/

theorem main_eq_processAll (w : World) (s : PersistedState) (invL : List String)
    (ip : String) (hi : w.inventory = some invL) (hp : w.publicIP = some ip)
    (hne : ip ≠ "") :
    main w s = processAll w s invL ip := by
  simp only [main, hi, hp]
  rw [if_neg hne]

theorem runWork_exit (w : World) (s : PersistedState) (current created deleted : List String)
    (ipC : Bool) (ip : String) :
    (runWork w s current created deleted ipC ip).exit = .returned 0 := rfl

theorem runWork_writes_ne (w : World) (s : PersistedState)
    (current created deleted : List String) (ipC : Bool) (ip : String) :
    (runWork w s current created deleted ipC ip).writes ≠ [] := by
  simp [runWork]

theorem runWork_domainIPs (w : World) (s : PersistedState)
    (current created deleted : List String) (ipC : Bool) (ip : String) :
    (runWork w s current created deleted ipC ip).finalState.domainIPs =
      some (deleted.foldl (processDeletedDomain w)
        (current.foldl (processCurrentDomain w created ipC ip)
          { trace := [], decisions := [], stored := s.domainIPs.getD [] })).stored := rfl

theorem runWork_decisions (w : World) (s : PersistedState)
    (current created deleted : List String) (ipC : Bool) (ip : String) :
    (runWork w s current created deleted ipC ip).decisions =
      (deleted.foldl (processDeletedDomain w)
        (current.foldl (processCurrentDomain w created ipC ip)
          { trace := [], decisions := [], stored := s.domainIPs.getD [] })).decisions := rfl

theorem processAll_cases (w : World) (s : PersistedState) (invL : List String) (ip : String) :
    (processAll w s invL ip =
        { cfTrace := [], writes := [], decisions := [], finalState := s, exit := .returned 0 } ∧
      createdOf invL s = [] ∧ deletedOf invL s = [] ∧
      s.lastIP = some ip ∧ w.forceUpdate = false) ∨
    processAll w s invL ip =
      runWork w s (currentOf invL) (createdOf invL s) (deletedOf invL s) (ipChangedOf s ip) ip := by
  unfold processAll
  split
  · next hcond =>
    left
    simp only [Bool.and_eq_true, Bool.not_eq_true', Bool.or_eq_false_iff,
      Bool.not_eq_false', List.isEmpty_iff, ipChangedOf, bne_eq_false_iff_eq] at hcond
    exact ⟨rfl, hcond.1.1.1, hcond.1.1.2, hcond.1.2, hcond.2⟩
  · right; rfl

theorem processAll_exit (w : World) (s : PersistedState) (invL : List String) (ip : String) :
    (processAll w s invL ip).exit = .returned 0 := by
  unfold processAll
  split
  · rfl
  · rfl

theorem processAll_early (w : World) (s : PersistedState) (invL : List String) (ip : String)
    (hsame : ∀ d, d ∈ invL ↔ d ∈ s.hostsFile.getD [])
    (hip : s.lastIP = some ip) (hf : w.forceUpdate = false) :
    processAll w s invL ip =
      { cfTrace := [], writes := [], decisions := [], finalState := s, exit := .returned 0 } := by
  have hc : createdOf invL s = [] := by
    unfold createdOf currentOf previousOf
    rw [List.filter_eq_nil_iff]
    intro a ha
    have h1 : ((s.hostsFile.getD []).dedup).contains a = true :=
      List.elem_iff.mpr (List.mem_dedup.mpr ((hsame a).mp (List.mem_dedup.mp ha)))
    rw [h1]
    decide
  have hd : deletedOf invL s = [] := by
    unfold deletedOf currentOf previousOf
    rw [List.filter_eq_nil_iff]
    intro a ha
    have h1 : (invL.dedup).contains a = true :=
      List.elem_iff.mpr (List.mem_dedup.mpr ((hsame a).mpr (List.mem_dedup.mp ha)))
    rw [h1]
    decide
  have hipb : ipChangedOf s ip = false := by
    unfold ipChangedOf
    rw [hip]
    exact bne_self_eq_false _
  unfold processAll
  rw [hc, hd, hipb, hf]
  rfl

theorem main_state_after (w : World) (s : PersistedState) (invL : List String) (ip : String)
    (hi : w.inventory = some invL) (hp : w.publicIP = some ip) (hne : ip ≠ "") :
    (main w s).finalState.lastIP = some ip ∧
    (∀ d, d ∈ (main w s).finalState.hostsFile.getD [] ↔ d ∈ invL) := by
  rw [main_eq_processAll w s invL ip hi hp hne]
  rcases processAll_cases w s invL ip with ⟨heq, hc, hd, hip, _⟩ | heq
  · rw [heq]
    refine ⟨hip, fun d => ?_⟩
    constructor
    · intro hdm
      by_contra hni
      have hcf : (currentOf invL).contains d = false :=
        Bool.eq_false_iff.mpr
          (fun hcc => hni (List.mem_dedup.mp (List.elem_iff.mp hcc)))
      have hmem : d ∈ deletedOf invL s := by
        unfold deletedOf previousOf
        rw [List.mem_filter]
        exact ⟨List.mem_dedup.mpr hdm, by rw [hcf]; rfl⟩
      rw [hd] at hmem
      cases hmem
    · intro hdi
      by_contra hnp
      have hcf : (previousOf s).contains d = false :=
        Bool.eq_false_iff.mpr
          (fun hcc => hnp (List.mem_dedup.mp (List.elem_iff.mp hcc)))
      have hmem : d ∈ createdOf invL s := by
        unfold createdOf currentOf
        rw [List.mem_filter]
        exact ⟨List.mem_dedup.mpr hdi, by rw [hcf]; rfl⟩
      rw [hc] at hmem
      cases hmem
  · rw [heq]
    refine ⟨rfl, fun d => ?_⟩
    show d ∈ currentOf invL ↔ d ∈ invL
    exact List.mem_dedup

/-! ### Delta-set membership helpers -/

theorem contains_false_of_not_mem {l : List String} {a : String} (h : a ∉ l) :
    l.contains a = false :=
  Bool.eq_false_iff.mpr (fun hc => h (List.elem_iff.mp hc))

theorem createdOf_contains_false (invL : List String) (s : PersistedState) (h : String)
    (hprev : h ∈ s.hostsFile.getD []) :
    (createdOf invL s).contains h = false := by
  apply contains_false_of_not_mem
  intro hm
  have h2 := (List.mem_filter.mp hm).2
  have hct : (previousOf s).contains h = true := by
    unfold previousOf
    exact List.elem_iff.mpr (List.mem_dedup.mpr hprev)
  rw [hct] at h2
  exact absurd h2 (by decide)

theorem mem_deletedOf (invL : List String) (s : PersistedState) (h : String)
    (hprev : h ∈ s.hostsFile.getD []) (hcur : h ∉ invL) :
    h ∈ deletedOf invL s := by
  unfold deletedOf
  rw [List.mem_filter]
  refine ⟨by unfold previousOf; exact List.mem_dedup.mpr hprev, ?_⟩
  have hcf : (currentOf invL).contains h = false :=
    contains_false_of_not_mem (fun hm => hcur (List.mem_dedup.mp hm))
  rw [hcf]
  rfl

theorem not_mem_deletedOf (invL : List String) (s : PersistedState) (h : String)
    (hcur : h ∈ invL) :
    h ∉ deletedOf invL s := by
  intro hm
  have h2 := (List.mem_filter.mp hm).2
  have hct : (currentOf invL).contains h = true := by
    unfold currentOf
    exact List.elem_iff.mpr (List.mem_dedup.mpr hcur)
  rw [hct] at h2
  exact absurd h2 (by decide)

theorem nodup_currentOf (invL : List String) : (currentOf invL).Nodup :=
  List.nodup_dedup invL

theorem mem_currentOf (invL : List String) (h : String) (hcur : h ∈ invL) :
    h ∈ currentOf invL :=
  List.mem_dedup.mpr hcur

/-! ### Claim theorems -/

/-- C1: when the current hostname set equals the previous one, the last
known public IP equals the current (non-degenerate) public IP and the
force-update flag is unset, the run makes no DNS-provider API call, writes
none of the three persisted stores, leaves the state unchanged and returns
success.  (The inventory and public-IP reads needed to evaluate this
condition do occur; the claim's own elaboration restricts "no network
calls" to DNS-provider calls and state writes, which is what is proved.) -/
theorem c1_early_exit_frame (w : World) (s : PersistedState) (invL : List String)
    (ip : String) (hi : w.inventory = some invL) (hp : w.publicIP = some ip)
    (hne : ip ≠ "")
    (hsame : ∀ d, d ∈ invL ↔ d ∈ s.hostsFile.getD [])
    (hip : s.lastIP = some ip) (hf : w.forceUpdate = false) :
    (main w s).cfTrace = [] ∧ (main w s).writes = [] ∧
    (main w s).finalState = s ∧ (main w s).exit = .returned 0 := by
  rw [main_eq_processAll w s invL ip hi hp hne,
    processAll_early w s invL ip hsame hip hf]
  exact ⟨rfl, rfl, rfl, rfl⟩

/-- C1 witness: a concrete in-sync run takes the early exit. -/
theorem c1_early_exit_frame_witness :
    (main wA sWit1).cfTrace = [] ∧ (main wA sWit1).writes = [] ∧
    (main wA sWit1).finalState = sWit1 ∧ (main wA sWit1).exit = .returned 0 :=
  c1_early_exit_frame wA sWit1 ["a.hung99.com"] "1.1.1.1" rfl rfl (by decide)
    (fun _ => Iff.rfl) rfl rfl

/-- C2: with no external change between two runs (same inventory, same
public IP, force flag unset both times), the second run makes zero
DNS-provider API calls: whatever the first run did, it leaves the persisted
hostname set matching the inventory and the last IP matching the current
one, so the second run takes the early exit. -/
theorem c2_second_run_no_dns_calls (w1 w2 : World) (s : PersistedState)
    (invL : List String) (ip : String)
    (h1i : w1.inventory = some invL) (h2i : w2.inventory = some invL)
    (h1p : w1.publicIP = some ip) (h2p : w2.publicIP = some ip) (hne : ip ≠ "")
    (_h1f : w1.forceUpdate = false) (h2f : w2.forceUpdate = false) :
    (main w2 (main w1 s).finalState).cfTrace = [] := by
  obtain ⟨hL, hH⟩ := main_state_after w1 s invL ip h1i h1p hne
  rw [main_eq_processAll w2 _ invL ip h2i h2p hne,
    processAll_early w2 _ invL ip (fun d => (hH d).symm) hL h2f]

/-- C2 witness: a concrete first run from an empty state followed by an
identical second run, whose Cloudflare trace is empty. -/
theorem c2_second_run_no_dns_calls_witness :
    (main wWit2 (main wWit2 sEmpty).finalState).cfTrace = [] :=
  c2_second_run_no_dns_calls wWit2 wWit2 sEmpty ["a.hung99.com", "b.hung99.com"]
    "2.2.2.2" rfl rfl rfl rfl (by decide) rfl rfl

/-- C9: when inventory authentication/listing fails (the call raises) or
public-IP resolution fails (returns nothing), the run aborts before any
state mutation: no store is written, the persisted state is unchanged, and
no DNS-provider call was made. -/
theorem c9_abort_no_mutation (w : World) (s : PersistedState)
    (h : w.inventory = none ∨ w.publicIP = none) :
    (main w s).writes = [] ∧ (main w s).finalState = s ∧ (main w s).cfTrace = [] := by
  rcases h with h | h
  · have hm : main w s =
        { cfTrace := [], writes := [], decisions := [], finalState := s,
          exit := .crashed } := by
      unfold main; rw [h]
    rw [hm]
    exact ⟨rfl, rfl, rfl⟩
  · cases hi : w.inventory with
    | none =>
      have hm : main w s =
          { cfTrace := [], writes := [], decisions := [], finalState := s,
            exit := .crashed } := by
        unfold main; rw [hi]
      rw [hm]
      exact ⟨rfl, rfl, rfl⟩
    | some invL =>
      have hm : main w s =
          { cfTrace := [], writes := [], decisions := [], finalState := s,
            exit := .returned 1 } := by
        unfold main; rw [hi, h]
      rw [hm]
      exact ⟨rfl, rfl, rfl⟩

/-- C9 witness: a concrete inventory failure leaves a non-trivial state
untouched. -/
theorem c9_abort_no_mutation_witness :
    (main wWit9 sCex4).writes = [] ∧ (main wWit9 sCex4).finalState = sCex4 ∧
    (main wWit9 sCex4).cfTrace = [] :=
  c9_abort_no_mutation wWit9 sCex4 (Or.inl rfl)

/-- C6 counterexample: with a failing inventory and a perfectly good public
IP, the run crashes and the process exit status is non-zero, so a non-zero
exit is NOT exclusive to public-IP resolution failure as the claim
states. -/
theorem c6_counterexample_inventory_failure :
    wCex6.publicIP = some "1.1.1.1" ∧
    (main wCex6 sEmpty).exit = ExitOutcome.crashed ∧
    processExitCode (main wCex6 sEmpty).exit ≠ 0 := by decide

/-- C6 amended: a complete characterisation of the exit outcome.  `main`
returns 0 whenever it completes (early exit and per-hostname failures
included) and returns 1 exactly when public-IP resolution yields no usable
IP; an inventory failure instead raises out of `main`, crashing the process
with a non-zero interpreter status — so inventory failure also yields a
non-zero process exit, contrary to the original claim. -/
theorem c6_exit_code_total (w : World) (s : PersistedState) :
    (main w s).exit =
      (match w.inventory, w.publicIP with
        | none, _ => ExitOutcome.crashed
        | some _, none => ExitOutcome.returned 1
        | some _, some ip =>
          if ip = "" then ExitOutcome.returned 1 else ExitOutcome.returned 0) := by
  unfold main
  cases w.inventory with
  | none => rfl
  | some invL =>
    cases w.publicIP with
    | none => rfl
    | some ip =>
      show (if ip = "" then
          ({ cfTrace := [], writes := [], decisions := [], finalState := s,
             exit := ExitOutcome.returned 1 } : RunResult)
        else processAll w s invL ip).exit =
        (if ip = "" then ExitOutcome.returned 1 else ExitOutcome.returned 0)
      by_cases hip : ip = ""
      · rw [if_pos hip, if_pos hip]
      · rw [if_neg hip, if_neg hip]
        exact processAll_exit w s invL ip

/-- C7: the Domain Router returns the configuration of the first configured
root (in configuration iteration order) that the hostname ends with, and
absent when the hostname ends with no configured root; in particular
`app.example.com` resolves under root `example.com` while
`example.com.evil.org` does not. -/
theorem c7_router_first_suffix_match :
    (∀ (cfg : List (String × CFConfig)) (d : String),
      get_cf_config_for_domain cfg d =
        (cfg.find? (fun p => strEndsWith d p.1)).map Prod.snd) ∧
    (∀ (cfg : List (String × CFConfig)) (d : String),
      (∀ p ∈ cfg, ¬ (p.1.data <:+ d.data)) → get_cf_config_for_domain cfg d = none) ∧
    (∀ c : CFConfig,
      get_cf_config_for_domain [("example.com", c)] "app.example.com" = some c) ∧
    (∀ c : CFConfig,
      get_cf_config_for_domain [("example.com", c)] "example.com.evil.org" = none) := by
  have hfind : ∀ (cfg : List (String × CFConfig)) (d : String),
      get_cf_config_for_domain cfg d =
        (cfg.find? (fun p => strEndsWith d p.1)).map Prod.snd := by
    intro cfg d
    induction cfg with
    | nil => rfl
    | cons p rest ih =>
      obtain ⟨root, c⟩ := p
      by_cases he : strEndsWith d root = true
      · simp [get_cf_config_for_domain, List.find?_cons, he]
      · simp only [get_cf_config_for_domain, List.find?_cons]
        rw [Bool.eq_false_iff.mpr he]
        simp only [Bool.false_eq_true, if_false]
        exact ih
  refine ⟨hfind, ?_, ?_, ?_⟩
  · intro cfg d hno
    induction cfg with
    | nil => rfl
    | cons p rest ih =>
      have he : strEndsWith d p.1 = false :=
        Bool.eq_false_iff.mpr
          (fun ht => hno p (List.mem_cons_self _ _) ((strEndsWith_iff d p.1).mp ht))
      obtain ⟨root, c⟩ := p
      simp only [get_cf_config_for_domain]
      rw [he]
      simp only [Bool.false_eq_true, if_false]
      exact ih (fun q hq => hno q (List.mem_cons_of_mem _ hq))
  · intro c
    simp only [get_cf_config_for_domain]
    rw [show strEndsWith "app.example.com" "example.com" = true from by decide]
    rfl
  · intro c
    simp only [get_cf_config_for_domain]
    rw [show strEndsWith "example.com.evil.org" "example.com" = false from by decide]
    rfl

/-- C7 witness: the no-suffix-match part applied at a concrete unroutable
hostname. -/
theorem c7_router_first_suffix_match_witness :
    get_cf_config_for_domain [("hung99.com", cfgA)] "a.other.org" = none :=
  c7_router_first_suffix_match.2.1 [("hung99.com", cfgA)] "a.other.org" (by
    intro p hp
    rw [List.mem_singleton] at hp
    subst hp
    intro hs
    exact absurd ((strEndsWith_iff "a.other.org" "hung99.com").mpr hs) (by decide))

/-- C8: `createOrUpdate` first queries the provider's records for the
hostname; with zero records it issues one create carrying
`type=A, ttl=3600, proxied=true` and the target IP as content; with one or
more records it visits every returned record, issuing an in-place update
for each whose content differs from the target IP and no write for each
whose content equals it. -/
theorem c8_create_or_update (w : CFWorld) (d ip : String) (rs : List CFRecord)
    (hrec : w.records d = some rs) :
    (rs = [] → create_cloudflare_a_record w d ip =
      some [CFCall.lookup d,
        CFCall.createPost d
          { rtype := "A", name := d, content := ip, ttl := 3600, proxied := true }
          (w.postOk d)]) ∧
    (rs ≠ [] → create_cloudflare_a_record w d ip =
      some (CFCall.lookup d :: CFCall.lookup d ::
        rs.foldr (fun r acc =>
          (if r.content != ip then
            [CFCall.putUpdate d r.id
              { rtype := "A", name := d, content := ip, ttl := 3600, proxied := true }
              (w.putOk d r.id)]
          else []) ++ acc) [])) := by
  constructor
  · rintro rfl
    simp [create_cloudflare_a_record, hrec]
    rfl
  · intro hrs
    have hlen : rs.length > 0 := List.length_pos.mpr hrs
    have hemp : rs.isEmpty = false := by
      cases rs with
      | nil => exact absurd rfl hrs
      | cons r rest => rfl
    simp only [create_cloudflare_a_record, update_cloudflare_a_record, hrec,
      if_pos hlen, hemp]
    simp only [Bool.false_eq_true, if_false, Option.map_some]
    rfl

/-- C8 witness: against two existing records (one stale, one already
correct) the composite issues the existence check, the update's lookup and
exactly one in-place PUT for the stale record. -/
theorem c8_create_or_update_witness :
    create_cloudflare_a_record cfTwoRecords "a.hung99.com" "1.1.1.1" =
      some [CFCall.lookup "a.hung99.com", CFCall.lookup "a.hung99.com",
        CFCall.putUpdate "a.hung99.com" "r1"
          { rtype := "A", name := "a.hung99.com", content := "1.1.1.1",
            ttl := 3600, proxied := true } true] :=
  (c8_create_or_update cfTwoRecords "a.hung99.com" "1.1.1.1"
    [{ id := "r1", content := "3.3.3.3" }, { id := "r2", content := "1.1.1.1" }]
    rfl).2 (by decide)

/-- C3 counterexample: `a.hung99.com` is in both the previous and current
set, its stored IP differs from the current public IP, the run completes
successfully — yet the stored IP is still the stale one, because the run
was triggered only by a domain deletion (the IP did not change and the
force flag is unset), so the hostname takes the no-op branch. -/
theorem c3_counterexample_stale_entry_survives :
    "a.hung99.com" ∈ sCex3.hostsFile.getD [] ∧
    wA.inventory = some ["a.hung99.com"] ∧
    wA.publicIP = some "1.1.1.1" ∧
    dictGet (sCex3.domainIPs.getD []) "a.hung99.com" = some "9.9.9.9" ∧
    (main wA sCex3).exit = ExitOutcome.returned 0 ∧
    dictGet ((main wA sCex3).finalState.domainIPs.getD []) "a.hung99.com" =
      some "9.9.9.9" := by decide

/-- C3 amended: a hostname present in both the previous and current sets
whose stored entry differs from the current public IP ends up stored with
the current public IP after a successful run, provided the run actually
updates it: its routing resolves, the public IP changed (or the force flag
is set), and its provider record lookup succeeds.  (Without the update
trigger the hostname takes the no-op branch and keeps its stale entry, as
the counterexample shows.) -/
theorem c3_amended_update_records (w : World) (s : PersistedState) (invL : List String)
    (ip h old : String) (c : CFConfig) (rs : List CFRecord)
    (hi : w.inventory = some invL) (hp : w.publicIP = some ip) (hne : ip ≠ "")
    (hcur : h ∈ invL) (hprev : h ∈ s.hostsFile.getD [])
    (hold : dictGet (s.domainIPs.getD []) h = some old) (_holdne : old ≠ ip)
    (htrig : s.lastIP ≠ some ip ∨ w.forceUpdate = true)
    (hcfg : get_cf_config_for_domain w.cfConfig h = some c)
    (hrec : w.cf.records h = some rs) :
    (main w s).exit = .returned 0 ∧
    dictGet ((main w s).finalState.domainIPs.getD []) h = some ip := by
  rw [main_eq_processAll w s invL ip hi hp hne]
  rcases processAll_cases w s invL ip with ⟨_heq, _hc, _hd, hip, hforce⟩ | heq
  · rcases htrig with htrig | htrig
    · exact absurd hip htrig
    · rw [htrig] at hforce
      exact absurd hforce (by decide)
  · rw [heq]
    have hifb : (ipChangedOf s ip || w.forceUpdate) = true := by
      rcases htrig with htrig | htrig
      · have hb : ipChangedOf s ip = true := by
          unfold ipChangedOf
          exact bne_iff_ne.mpr htrig
        rw [hb]
        rfl
      · rw [htrig, Bool.or_true]
    refine ⟨runWork_exit w s _ _ _ _ ip, ?_⟩
    rw [runWork_domainIPs]
    simp only [Option.getD_some]
    rw [foldl_deleted_stored_notmem w _ _ h (not_mem_deletedOf invL s h hcur)]
    exact foldl_current_update_sets w (createdOf invL s) (ipChangedOf s ip) ip c rs
      (currentOf invL) (nodup_currentOf invL) _ h (mem_currentOf invL h hcur) hcfg
      (createdOf_contains_false invL s h hprev) (by rw [hold]; rfl) hifb hrec

/-- C3 witness: a changed public IP, one stale provider record, and a stale
stored entry converge to the new IP. -/
theorem c3_amended_update_records_witness :
    (main wWit3 sWit3).exit = .returned 0 ∧
    dictGet ((main wWit3 sWit3).finalState.domainIPs.getD []) "a.hung99.com" =
      some "1.1.1.1" :=
  c3_amended_update_records wWit3 sWit3 ["a.hung99.com"] "1.1.1.1" "a.hung99.com"
    "9.9.9.9" cfgA [{ id := "r1", content := "9.9.9.9" }] rfl rfl (by decide)
    (by decide) (by decide) (by decide) (by decide) (Or.inl (by decide)) (by decide) rfl

/-- C4 counterexample: `x.other.org` was deleted from the inventory and is
tracked in the domain-to-IP record, but it matches no configured root
domain, so the deletion loop skips it entirely (`continue` fires before the
`del stored_ips[domain]`): after a non-early-exit run that completes it is
still present in the persisted record, contradicting "regardless of ... or
the hostname had no routing configuration". -/
theorem c4_counterexample_unroutable_survives :
    "x.other.org" ∈ sCex4.hostsFile.getD [] ∧
    wCex4.inventory = some [] ∧
    get_cf_config_for_domain wCex4.cfConfig "x.other.org" = none ∧
    (main wCex4 sCex4).writes ≠ [] ∧
    (main wCex4 sCex4).exit = ExitOutcome.returned 0 ∧
    dictGet ((main wCex4 sCex4).finalState.domainIPs.getD []) "x.other.org" =
      some "1.1.1.1" := by decide

/-- C4 amended: a hostname in the deleted set whose routing resolves is
absent from the persisted domain-to-IP record after the run completes,
regardless of whether the remote delete succeeded, failed, or its lookup
raised; a deleted hostname with no routing configuration is skipped before
the state-removal step, so its entry survives (see counterexample). -/
theorem c4_amended_routable_deleted_removed (w : World) (s : PersistedState)
    (invL : List String) (ip h : String) (c : CFConfig)
    (hi : w.inventory = some invL) (hp : w.publicIP = some ip) (hne : ip ≠ "")
    (hprev : h ∈ s.hostsFile.getD []) (hcur : h ∉ invL)
    (hcfg : get_cf_config_for_domain w.cfConfig h = some c) :
    (main w s).exit = .returned 0 ∧
    dictGet ((main w s).finalState.domainIPs.getD []) h = none := by
  rw [main_eq_processAll w s invL ip hi hp hne]
  rcases processAll_cases w s invL ip with ⟨_heq, _hc, hdempty, _hip, _hforce⟩ | heq
  · exfalso
    have hmem := mem_deletedOf invL s h hprev hcur
    rw [hdempty] at hmem
    cases hmem
  · rw [heq]
    refine ⟨runWork_exit w s _ _ _ _ ip, ?_⟩
    rw [runWork_domainIPs]
    simp only [Option.getD_some]
    exact foldl_deleted_erases w c (deletedOf invL s) _ h
      (mem_deletedOf invL s h hprev hcur) hcfg

/-- C4 witness: a routable deleted hostname is removed from the record even
though the remote delete's lookup raised. -/
theorem c4_amended_routable_deleted_removed_witness :
    (main wWit4 sWit4).exit = .returned 0 ∧
    dictGet ((main wWit4 sWit4).finalState.domainIPs.getD []) "x.hung99.com" = none :=
  c4_amended_routable_deleted_removed wWit4 sWit4 [] "1.1.1.1" "x.hung99.com" cfgA
    rfl rfl (by decide) (by decide) (by decide) (by decide)

/-- C5 counterexample: the create POST for `a.hung99.com` answers non-2xx
(the `ok := false` flag on the traced call), which the DNS client catches
and logs internally; `main`'s own try block therefore sees no exception and
records the hostname in the updated record with the current public IP —
contradicting "that hostname is NOT recorded". -/
theorem c5_counterexample_post_failure_recorded :
    (main wCex5 sCex5).cfTrace =
      [CFCall.lookup "a.hung99.com",
        CFCall.createPost "a.hung99.com" (mkPayload "a.hung99.com" "1.1.1.1") false] ∧
    (main wCex5 sCex5).exit = ExitOutcome.returned 0 ∧
    dictGet ((main wCex5 sCex5).finalState.domainIPs.getD []) "a.hung99.com" =
      some "1.1.1.1" := by decide

/-- C5 amended: only a provider failure of the record lookup (the GET)
raises out of the DNS client; the engine catches it, continues and
completes the run, and that hostname's entry in the updated record is left
exactly as it was before the run — in particular it is not newly recorded
with the current public IP.  A non-2xx on the create POST or update PUT
itself is swallowed inside the DNS client and the hostname IS recorded
(see counterexample). -/
theorem c5_amended_lookup_failure_not_recorded (w : World) (s : PersistedState)
    (invL : List String) (ip h : String) (c : CFConfig)
    (hi : w.inventory = some invL) (hp : w.publicIP = some ip) (hne : ip ≠ "")
    (hcur : h ∈ invL)
    (_hcfg : get_cf_config_for_domain w.cfConfig h = some c)
    (hrec : w.cf.records h = none)
    (hwork : (main w s).writes ≠ []) :
    (main w s).exit = .returned 0 ∧
    dictGet ((main w s).finalState.domainIPs.getD []) h =
      dictGet (s.domainIPs.getD []) h := by
  rw [main_eq_processAll w s invL ip hi hp hne] at hwork ⊢
  rcases processAll_cases w s invL ip with ⟨heq, _, _, _, _⟩ | heq
  · rw [heq] at hwork
    exact absurd rfl hwork
  · rw [heq]
    refine ⟨runWork_exit w s _ _ _ _ ip, ?_⟩
    rw [runWork_domainIPs]
    simp only [Option.getD_some]
    rw [foldl_deleted_stored_notmem w _ _ h (not_mem_deletedOf invL s h hcur)]
    exact foldl_current_stored_records_none w (createdOf invL s) (ipChangedOf s ip) ip
      (currentOf invL) _ h hrec

/-- C5 witness: a lookup failure for a newly created hostname leaves its
pre-run (stale) entry untouched while the run still succeeds. -/
theorem c5_amended_lookup_failure_not_recorded_witness :
    (main wWit5 sWit5).exit = .returned 0 ∧
    dictGet ((main wWit5 sWit5).finalState.domainIPs.getD []) "a.hung99.com" =
      dictGet (sWit5.domainIPs.getD []) "a.hung99.com" :=
  c5_amended_lookup_failure_not_recorded wWit5 sWit5 ["a.hung99.com"] "1.1.1.1"
    "a.hung99.com" cfgA rfl rfl (by decide) (by decide) (by decide) rfl (by decide)

/-- C10 counterexample: the domain-to-IP store is unreadable, the hostname
`a.hung99.com` is routable and in the current set — but because nothing
else changed, the run takes the early exit before ever loading the store:
no create is attempted and no decision is taken, contradicting "every
routable hostname in the current set ... takes the fresh-create branch". -/
theorem c10_counterexample_early_exit_no_create :
    sCex10.domainIPs = none ∧
    wA.inventory = some ["a.hung99.com"] ∧
    get_cf_config_for_domain wA.cfConfig "a.hung99.com" = some cfgA ∧
    (main wA sCex10).cfTrace = [] ∧
    (main wA sCex10).decisions = [] ∧
    (main wA sCex10).exit = ExitOutcome.returned 0 := by decide

/-- C10 amended: when the domain-to-IP store is missing or unparsable the
run does not fail; in a run that does not take the early exit (one that
writes state), every routable hostname of the current set takes the
fresh-create branch, and — whenever its provider record lookup succeeds —
ends up recorded with the current public IP, even if it is not newly
created.  (In an early-exit run the store is never even loaded and no
branch is taken, as the counterexample shows.) -/
theorem c10_amended_missing_store_creates (w : World) (s : PersistedState)
    (invL : List String) (ip h : String) (c : CFConfig)
    (hi : w.inventory = some invL) (hp : w.publicIP = some ip) (hne : ip ≠ "")
    (hstore : s.domainIPs = none)
    (hcur : h ∈ invL)
    (hcfg : get_cf_config_for_domain w.cfConfig h = some c)
    (hwork : (main w s).writes ≠ []) :
    (main w s).exit = .returned 0 ∧
    Decision.createBranch h ∈ (main w s).decisions ∧
    (∀ rs, w.cf.records h = some rs →
      dictGet ((main w s).finalState.domainIPs.getD []) h = some ip) := by
  rw [main_eq_processAll w s invL ip hi hp hne] at hwork ⊢
  rcases processAll_cases w s invL ip with ⟨heq, _, _, _, _⟩ | heq
  · rw [heq] at hwork
    exact absurd rfl hwork
  · rw [heq]
    have hstored0 : dictGet (s.domainIPs.getD []) h = none := by
      rw [hstore]
      rfl
    refine ⟨runWork_exit w s _ _ _ _ ip, ?_, ?_⟩
    · rw [runWork_decisions]
      apply mem_decisions_foldl_deleted
      exact foldl_current_create_decision w (createdOf invL s) (ipChangedOf s ip) ip c
        (currentOf invL) (nodup_currentOf invL) _ h (mem_currentOf invL h hcur)
        hcfg hstored0
    · intro rs hrec
      rw [runWork_domainIPs]
      simp only [Option.getD_some]
      rw [foldl_deleted_stored_notmem w _ _ h (not_mem_deletedOf invL s h hcur)]
      exact foldl_current_create_sets w (createdOf invL s) (ipChangedOf s ip) ip c rs
        (currentOf invL) (nodup_currentOf invL) _ h (mem_currentOf invL h hcur)
        hcfg hstored0 hrec

/-- C10 witness: unreadable store plus a changed IP — the tracked (not
newly created) routable hostname goes through the create branch and is
re-recorded. -/
theorem c10_amended_missing_store_creates_witness :
    (main wA sWit10).exit = .returned 0 ∧
    Decision.createBranch "a.hung99.com" ∈ (main wA sWit10).decisions ∧
    dictGet ((main wA sWit10).finalState.domainIPs.getD []) "a.hung99.com" =
      some "1.1.1.1" := by
  have h := c10_amended_missing_store_creates wA sWit10 ["a.hung99.com"] "1.1.1.1"
    "a.hung99.com" cfgA rfl rfl (by decide) rfl (by decide) (by decide) (by decide)
  exact ⟨h.1, h.2.1, h.2.2 [] rfl⟩

end NpmDdns
